import Mathlib

/-!
# Verification of the lazy tree data controller (rich-tree-view-plus)

A shallow embedding of the core of the repository:

* `treeUtils.ts` — `updateItemsRecursively`, `findItemById`, `flattenTree`;
* `DefaultDataSourceCache.ts` — the TTL cache (`get`/`set`/`has`/`delete`/
  `clear`/`cleanup`);
* `useLazyLoading.ts` — the controller (`loadItems`, `retryLoadItems`,
  `handleItemExpansion`, `clearCache`).

JavaScript `Date.now()` is passed in explicitly as a `Nat`.  The asynchronous
fetch of `loadItems` is the only suspension point in the source, so the
operation is split into a synchronous prefix (`loadItemsStart`, everything up
to and including issuing the fetch) and a completion (`loadItemsFinish`,
everything after the `await`); `loadItems` is their composition.  Each
operation also returns the list of arguments with which the Fetch Provider's
`getTreeItems` was invoked, so that call counts are observable.
-/

/-- `TreeViewItem` from `types.ts`: `id`, `label`, and an optional list of
children (`none` = not yet loaded, `some []` = loaded and empty).  The
`childrenCount` hint and other optional fields are opaque to the controller
logic modelled here (the controller reads the count through the data source's
`getChildrenCount`, which is a parameter). -/
inductive Item : Type where
  | mk (id : String) (label : String) (children : Option (List Item)) : Item

/-- Field accessor for `id`. -/
def Item.id : Item → String
  | .mk i _ _ => i

/-- Field accessor for `label`. -/
def Item.label : Item → String
  | .mk _ l _ => l

/-- Field accessor for `children`. -/
def Item.children : Item → Option (List Item)
  | .mk _ _ c => c

/-- `updateItemsRecursively` from `treeUtils.ts`: maps over the list; a node
whose `id` equals `parentId` gets its `children` replaced; a node with a
non-empty children array is rebuilt with recursively updated children; all
other nodes are returned unchanged. -/
def updateItemsRecursively : List Item → String → List Item → List Item
  | [], _, _ => []
  | Item.mk i l c :: rest, parentId, newChildren =>
    (if i = parentId then
      Item.mk i l (some newChildren)
    else
      match c with
      | some cs =>
        if cs.length > 0 then
          Item.mk i l (some (updateItemsRecursively cs parentId newChildren))
        else
          Item.mk i l (some cs)
      | none => Item.mk i l none)
    :: updateItemsRecursively rest parentId newChildren

/-- `findItemById` from `treeUtils.ts`: depth-first search, first match wins;
descends into a node's children (when present) before moving to the node's
right siblings. -/
def findItemById : List Item → String → Option Item
  | [], _ => none
  | Item.mk i l c :: rest, id =>
    if i = id then some (Item.mk i l c)
    else
      match c with
      | some cs =>
        match findItemById cs id with
        | some found => some found
        | none => findItemById rest id
      | none => findItemById rest id

/-- `flattenTree` from `treeUtils.ts`: depth-first, parent before children;
descends only into non-empty children arrays (an empty array contributes
nothing anyway). -/
def flattenTree : List Item → List Item
  | [] => []
  | Item.mk i l c :: rest =>
    Item.mk i l c ::
      ((match c with
        | some cs => if cs.length > 0 then flattenTree cs else []
        | none => []) ++ flattenTree rest)

/-! ## Association-list model of JavaScript `Map` and `Set`

`Map` is modelled as an association list in insertion order: `set` overwrites
in place or appends, `get` returns the first (unique) binding, `delete`
removes the binding.  A JS `Set` of strings is a duplicate-free list in
insertion order. -/

/-- `Map.get`: first binding for `key`, if any. -/
def lookupAssoc {α : Type} : List (String × α) → String → Option α
  | [], _ => none
  | (k, v) :: rest, key => if k = key then some v else lookupAssoc rest key

/-- `Map.set`: overwrite the binding in place, or append a new one. -/
def setAssoc {α : Type} : List (String × α) → String → α → List (String × α)
  | [], key, v => [(key, v)]
  | (k, w) :: rest, key, v =>
    if k = key then (key, v) :: rest else (k, w) :: setAssoc rest key v

/-- `Map.delete`: drop the binding for `key`. -/
def deleteAssoc {α : Type} (m : List (String × α)) (key : String) :
    List (String × α) :=
  m.filter (fun p => p.1 != key)

/-- `Set.add`: append if not already present. -/
def addId (s : List String) (id : String) : List String :=
  if s.contains id then s else s ++ [id]

/-- `Set.delete`: remove the id. -/
def removeId (s : List String) (id : String) : List String :=
  s.filter (fun x => x != id)

/-! ## `DefaultDataSourceCache.ts`

Each operation that reads `Date.now()` takes `now : Nat` explicitly.  `get`
and `has` return the updated cache alongside their result because expired
entries are deleted as a side effect. -/

/-- The internal `CacheEntry` of `DefaultDataSourceCache.ts`: value,
creation timestamp, and time-to-live. -/
structure CacheEntry where
  value : List Item
  timestamp : Nat
  ttl : Nat

/-- `DefaultDataSourceCache`: entry map plus the instance-wide default TTL
(constructor default 5 minutes = 300 000 ms). -/
structure Cache where
  entries : List (String × CacheEntry)
  defaultTtl : Nat

/-- The constructor's default TTL argument: 5 * 60 * 1000 ms. -/
def defaultCacheTtl : Nat := 5 * 60 * 1000

/-- `new DefaultDataSourceCache(ttl)`. -/
def Cache.mkCache (ttl : Nat) : Cache :=
  { entries := [], defaultTtl := ttl }

/-- `get(key)`: `null` when absent; when present but expired
(`now - timestamp > ttl`) delete the entry and return `null`; otherwise the
stored value.  (`Nat` subtraction truncates at 0, which agrees with JS where
a negative difference is never `> ttl`.) -/
def Cache.get (c : Cache) (now : Nat) (key : String) :
    Option (List Item) × Cache :=
  match lookupAssoc c.entries key with
  | none => (none, c)
  | some e =>
    if now - e.timestamp > e.ttl then
      (none, { c with entries := deleteAssoc c.entries key })
    else
      (some e.value, c)

/-- `set(key, value, ttl?)`: overwrite with a fresh timestamp; the TTL
defaults to the cache-wide default when omitted. -/
def Cache.set (c : Cache) (now : Nat) (key : String) (v : List Item)
    (ttl : Option Nat) : Cache :=
  let e : CacheEntry :=
    { value := v, timestamp := now, ttl := ttl.getD c.defaultTtl }
  { c with entries := setAssoc c.entries key e }

/-- `delete(key)`: returns whether an entry existed, and the cache without
it. -/
def Cache.delete (c : Cache) (key : String) : Bool × Cache :=
  ((lookupAssoc c.entries key).isSome,
   { c with entries := deleteAssoc c.entries key })

/-- `has(key)`: like `get` but returning a Boolean, with the same lazy-expiry
side effect. -/
def Cache.has (c : Cache) (now : Nat) (key : String) : Bool × Cache :=
  match lookupAssoc c.entries key with
  | none => (false, c)
  | some e =>
    if now - e.timestamp > e.ttl then
      (false, { c with entries := deleteAssoc c.entries key })
    else
      (true, c)

/-- `clear()`: drop all entries (the default TTL is kept). -/
def Cache.clear (c : Cache) : Cache :=
  { c with entries := [] }

/-- `cleanup()`: evict every currently-expired entry. -/
def Cache.cleanup (c : Cache) (now : Nat) : Cache :=
  { c with entries :=
      c.entries.filter (fun p => !(now - p.2.timestamp > p.2.ttl)) }

/-! ## The controller state and collaborators (`useLazyLoading.ts`) -/

/-- The Fetch Provider (`DataSource` in `types.ts`): `getTreeItems` models the
promise as `Except` (rejection carries the failure's message string, per the
controller's `error instanceof Error ? error.message : ...` extraction);
`getChildrenCount` is synchronous. -/
structure DataSource where
  getTreeItems : Option String → Except String (List Item)
  getChildrenCount : Item → Nat

/-- The mutable state the hook closes over: `items`, `loadingItems`,
`errorItems`, the cache behind `cacheRef`, and `fetchedTimesRef`. -/
structure HookState where
  items : List Item
  loadingItems : List String
  errorItems : List (String × String)
  cache : Cache
  fetchedTimes : List (String × Nat)

/-- The default `staleTime` prop: 30 000 ms. -/
def defaultStaleTime : Nat := 30000

/-- JS `parentId || 'root'`: `undefined` and the empty string (both falsy)
fall back to `"root"`. -/
def rootFallback (parentId : Option String) : String :=
  match parentId with
  | some p => if p = "" then "root" else p
  | none => "root"

/-- The cache key computed by `loadItems` and `retryLoadItems`:
`` `items-${parentId || 'root'}` ``. -/
def cacheKey (parentId : Option String) : String :=
  "items-" ++ rootFallback parentId

/-- The cache key the expansion handler deletes when a node is stale:
`` `items-${itemId}` `` — no `root` fallback here. -/
def expansionStaleDeleteKey (itemId : String) : String :=
  "items-" ++ itemId

/-- What `loadItems` does at its single suspension point: either it already
returned synchronously (`done`), or the fetch for `parentId` has been issued
and is outstanding (`fetching`). -/
inductive LoadStep where
  | done (result : Except String Unit)
  | fetching (parentId : Option String)

/-- The synchronous prefix of `loadItems` (after the non-null `dataSource`
check): compute the cache key, consult the cache (with its lazy-expiry side
effect); on a hit splice the cached children into the snapshot and finish; on
a miss mark `parentId` loading, clear its error entry, and issue the fetch.
Every `if (parentId)` in the source tests JS truthiness, so a defined but
empty parent id takes the root branch (whole-snapshot replacement on a hit,
no loading flag or error clearing on a miss).  The middle component lists the
Fetch Provider calls issued (`[parentId]` exactly when the outcome is
`fetching`). -/
def loadItemsStart (st : HookState) (parentId : Option String) (now : Nat) :
    HookState × List (Option String) × LoadStep :=
  let key := cacheKey parentId
  let res := st.cache.get now key
  let st1 : HookState := { st with cache := res.2 }
  match res.1 with
  | some cachedItems =>
    match parentId with
    | some pid =>
      if pid != "" then
        ({ st1 with items := updateItemsRecursively st1.items pid cachedItems },
         [], .done (.ok ()))
      else
        ({ st1 with items := cachedItems }, [], .done (.ok ()))
    | none => ({ st1 with items := cachedItems }, [], .done (.ok ()))
  | none =>
    let st2 : HookState :=
      match parentId with
      | some pid =>
        if pid != "" then
          { st1 with loadingItems := addId st1.loadingItems pid,
                     errorItems := deleteAssoc st1.errorItems pid }
        else st1
      | none => st1
    (st2, [parentId], .fetching parentId)

/-- The completion of `loadItems` after the awaited fetch settles at time
`nowDone`.  On success: cache the result, record the fetch time under
`parentId || 'root'`, splice into the snapshot, and clear the loading flag.
On failure: clear the loading flag, record the message in `errorItems`, and
re-throw.  As in the prefix, `if (parentId)` is a truthiness test: a defined
but empty parent id takes the root branch on both success (whole-snapshot
replacement, no loading-flag removal) and failure (no loading or error
update). -/
def loadItemsFinish (st : HookState) (parentId : Option String)
    (result : Except String (List Item)) (nowDone : Nat) :
    HookState × Except String Unit :=
  match result with
  | .ok fetchedItems =>
    let st1 : HookState :=
      { st with
        cache := st.cache.set nowDone (cacheKey parentId) fetchedItems none,
        fetchedTimes := setAssoc st.fetchedTimes (rootFallback parentId) nowDone }
    match parentId with
    | some pid =>
      if pid != "" then
        ({ st1 with items := updateItemsRecursively st1.items pid fetchedItems,
                    loadingItems := removeId st1.loadingItems pid },
         .ok ())
      else
        ({ st1 with items := fetchedItems }, .ok ())
    | none => ({ st1 with items := fetchedItems }, .ok ())
  | .error e =>
    match parentId with
    | some pid =>
      if pid != "" then
        ({ st with loadingItems := removeId st.loadingItems pid,
                   errorItems := setAssoc st.errorItems pid e },
         .error e)
      else (st, .error e)
    | none => (st, .error e)

/-- `loadItems(parentId?)` run to completion: without a data source it warns
and returns; otherwise the synchronous prefix followed, on a cache miss, by
the fetch and its completion.  `now` is the time at the cache check,
`nowDone` the time when the fetch settles. -/
def loadItems (ds : Option DataSource) (st : HookState)
    (parentId : Option String) (now nowDone : Nat) :
    HookState × List (Option String) × Except String Unit :=
  match ds with
  | none => (st, [], .ok ())
  | some d =>
    match loadItemsStart st parentId now with
    | (st1, calls, .done r) => (st1, calls, r)
    | (st1, calls, .fetching pid) =>
      let fin := loadItemsFinish st1 pid (d.getTreeItems pid) nowDone
      (fin.1, calls, fin.2)

/-- `retryLoadItems(parentId)`: delete the cache entry for
`` `items-${parentId || 'root'}` ``, then delegate to `loadItems`. -/
def retryLoadItems (ds : Option DataSource) (st : HookState)
    (parentId : String) (now nowDone : Nat) :
    HookState × List (Option String) × Except String Unit :=
  let st1 : HookState :=
    { st with cache := (st.cache.delete (cacheKey (some parentId))).2 }
  loadItems ds st1 (some parentId) now nowDone

/-- The JS staleness test `!lastFetched || Date.now() - lastFetched >
staleTime`.  A recorded timestamp of `0` is falsy in JS, hence counted
stale. -/
def isStaleAt (lastFetched : Option Nat) (now staleTime : Nat) : Bool :=
  match lastFetched with
  | none => true
  | some t => t == 0 || now - t > staleTime

/-- The JS emptiness test `!item.children || item.children.length === 0`. -/
def hasNoLoadedChildren (item : Item) : Bool :=
  match item.children with
  | none => true
  | some cs => cs.length == 0

/-- The synchronous prefix of `handleItemExpansion(itemId, currentItems)`:
no-op without a data source or when the id is not found; otherwise ask the
provider's children count, compute staleness from `fetchedTimes`, and — when
`childrenCount !== 0 && (isStale || !item.children ||
item.children.length === 0)` — first delete the cache entry
`` `items-${itemId}` `` if stale, then invoke `loadItems` (its synchronous
prefix; the third component is `some step` exactly when `loadItems` was
invoked). -/
def handleItemExpansionStart (ds : Option DataSource) (staleTime : Nat)
    (st : HookState) (itemId : String) (now : Nat) :
    HookState × List (Option String) × Option LoadStep :=
  match ds with
  | none => (st, [], none)
  | some d =>
    match findItemById st.items itemId with
    | none => (st, [], none)
    | some item =>
      let childrenCount := d.getChildrenCount item
      let lastFetched := lookupAssoc st.fetchedTimes itemId
      let isStale := isStaleAt lastFetched now staleTime
      if childrenCount != 0 && (isStale || hasNoLoadedChildren item) then
        let st1 : HookState :=
          if isStale then
            { st with
              cache := (st.cache.delete (expansionStaleDeleteKey itemId)).2 }
          else st
        let res := loadItemsStart st1 (some itemId) now
        (res.1, res.2.1, some res.2.2)
      else
        (st, [], none)

/-- `handleItemExpansion` run to completion: the synchronous prefix, then —
when a fetch was issued — the fetch and its completion, with any rejection
swallowed (`loadItems(itemId).catch(...)` only logs). -/
def handleItemExpansion (ds : Option DataSource) (staleTime : Nat)
    (st : HookState) (itemId : String) (now nowDone : Nat) :
    HookState × List (Option String) :=
  match handleItemExpansionStart ds staleTime st itemId now with
  | (st1, calls, none) => (st1, calls)
  | (st1, calls, some (.done _)) => (st1, calls)
  | (st1, calls, some (.fetching pid)) =>
    match ds with
    | some d => ((loadItemsFinish st1 pid (d.getTreeItems pid) nowDone).1, calls)
    | none => (st1, calls)

/-- `clearCache()`: clear the cache and reset `loadingItems` and
`errorItems`; `items` and `fetchedTimes` are untouched. -/
def clearCache (st : HookState) : HookState :=
  { st with cache := st.cache.clear, loadingItems := [], errorItems := [] }

/-! ## Concrete fixtures

A one-node snapshot whose single node `"a"` has one unloaded child, with an
empty cache and no recorded fetch times — the state right after an initial
root load in the demo application. -/

/-- The child the provider returns for `"a"`. -/
def childA1 : Item := Item.mk "a1" "A1" none

/-- A provider: `"a"` has one child; every node reports one child. -/
def dsA : DataSource :=
  { getTreeItems := fun p => if p = some "a" then .ok [childA1] else .ok [],
    getChildrenCount := fun _ => 1 }

/-- Snapshot `[a]` with nothing loaded, empty cache, no fetch times. -/
def stA : HookState :=
  { items := [Item.mk "a" "A" none], loadingItems := [], errorItems := [],
    cache := Cache.mkCache defaultCacheTtl, fetchedTimes := [] }

/-- A provider whose every fetch rejects with message `"boom"`; counts are 1
so expansion decisions would fetch. -/
def dsFail : DataSource :=
  { getTreeItems := fun _ => .error "boom",
    getChildrenCount := fun _ => 1 }

/-- A provider reporting zero children for every node (all leaves). -/
def dsLeaf : DataSource :=
  { getTreeItems := fun _ => .ok [childA1],
    getChildrenCount := fun _ => 0 }

/-- A populated cache entry: `[childA1]` stored at time 1000 with TTL 5000. -/
def entryC2 : CacheEntry :=
  { value := [childA1], timestamp := 1000, ttl := 5000 }

/-- Like `stA` but with a fresh cache entry under the key `"items-a"`. -/
def stC2 : HookState :=
  { items := [Item.mk "a" "A" none], loadingItems := [], errorItems := [],
    cache := { entries := [("items-a", entryC2)], defaultTtl := defaultCacheTtl },
    fetchedTimes := [] }

/-- Like `stC2` but with the fresh cache entry under the key `"items-root"`
— the key `loadItems` computes for an absent or empty parent id. -/
def stRoot : HookState :=
  { items := [Item.mk "a" "A" none], loadingItems := [], errorItems := [],
    cache := { entries := [("items-root", entryC2)], defaultTtl := defaultCacheTtl },
    fetchedTimes := [] }

/-- A cache entry stored at time 100 with TTL 50: fresh at 120, expired at
200. -/
def entryW : CacheEntry :=
  { value := [childA1], timestamp := 100, ttl := 50 }

/-- A one-entry cache holding `entryW` under `"k"`. -/
def cacheW : Cache :=
  { entries := [("k", entryW)], defaultTtl := 1000 }

/-- A two-root tree with a nested node `"b"`, for the replace-children
round-trip. -/
def items0 : List Item :=
  [Item.mk "a" "A" (some [Item.mk "b" "B" none]), Item.mk "c" "C" none]

/-- Replacement children for the round-trip. -/
def newC : List Item := [Item.mk "x" "X" none]

/-- The key derivation as the specification words it:
`"items-" + (parentId ?? "root")` — the nullish fallback applies only when
`parentId` is absent, not when it is the empty string.  Stated from the
spec's words for comparison against the source's `cacheKey`. -/
def specCacheKey (parentId : Option String) : String :=
  "items-" ++ parentId.getD "root"

/-- Shorthand for an expansion-handler result that invoked `loadItems`: the
load's outcome wrapped in `some`. -/
def invokedLoad (r : HookState × List (Option String) × LoadStep) :
    HookState × List (Option String) × Option LoadStep :=
  (r.1, r.2.1, some r.2.2)

/-- The state on which the expansion handler invokes `loadItems` when the
node is stale: the cache entry under the handler's key already deleted. -/
def staleDeletedState (st : HookState) (itemId : String) : HookState :=
  { st with cache := (st.cache.delete (expansionStaleDeleteKey itemId)).2 }

/-! ## Helper lemmas -/

theorem lookupAssoc_deleteAssoc_self {α : Type} (m : List (String × α))
    (k : String) : lookupAssoc (deleteAssoc m k) k = none := by
  induction m with
  | nil => rfl
  | cons p rest ih =>
    by_cases h : p.1 = k
    · simpa [deleteAssoc, List.filter_cons, h] using ih
    · simpa [deleteAssoc, List.filter_cons, h, lookupAssoc] using ih

theorem lookupAssoc_setAssoc_self {α : Type} (m : List (String × α))
    (k : String) (v : α) : lookupAssoc (setAssoc m k v) k = some v := by
  induction m with
  | nil => simp [setAssoc, lookupAssoc]
  | cons p rest ih =>
    rcases p with ⟨k', v'⟩
    by_cases h : k' = k
    · simp [setAssoc, lookupAssoc, h]
    · simp [setAssoc, lookupAssoc, h, ih]

theorem contains_addId_self (s : List String) (id : String) :
    (addId s id).contains id = true := by
  by_cases h : s.contains id = true
  · have h' : id ∈ s := by simpa using h
    simp [addId, h']
  · have h' : id ∉ s := by simpa using h
    simp [addId, h']

theorem contains_removeId_self (s : List String) (id : String) :
    (removeId s id).contains id = false := by
  simp [removeId]

/-! ## Claim theorems -/

/-- C6: leaf nodes never fetch — if the node is found in the snapshot and the
provider's children count for it is 0, `handleItemExpansion` issues no Fetch
Provider call and leaves the state unchanged, regardless of cache contents,
staleness, or the node's current children. -/
theorem C6_leaf_never_fetches (ds : DataSource) (staleTime : Nat)
    (st : HookState) (itemId : String) (item : Item) (now nowDone : Nat)
    (hfind : findItemById st.items itemId = some item)
    (hzero : ds.getChildrenCount item = 0) :
    handleItemExpansion (some ds) staleTime st itemId now nowDone = (st, []) := by
  have hstart :
      handleItemExpansionStart (some ds) staleTime st itemId now
        = (st, [], none) := by
    simp [handleItemExpansionStart, hfind, hzero]
  simp [handleItemExpansion, hstart]

/-- C6 witness: the zero-count provider `dsLeaf` on the unloaded snapshot
`stA` — the node is found, its count is 0, and expansion is a no-op with no
fetch calls. -/
theorem C6_witness :
    findItemById stA.items "a" = some (Item.mk "a" "A" none) ∧
    dsLeaf.getChildrenCount (Item.mk "a" "A" none) = 0 ∧
    handleItemExpansion (some dsLeaf) defaultStaleTime stA "a" 5 6 = (stA, []) := by
  have hfind : findItemById stA.items "a" = some (Item.mk "a" "A" none) := by
    simp [stA, findItemById]
  exact ⟨hfind, rfl,
    C6_leaf_never_fetches dsLeaf defaultStaleTime stA "a"
      (Item.mk "a" "A" none) 5 6 hfind rfl⟩

/-- C7: `clearCache` empties the cache and resets the loading set and error
map, while the snapshot and the fetch-timestamp map are unchanged (the
cache's default TTL is also kept). -/
theorem C7_clearCache_frame (st : HookState) :
    (clearCache st).items = st.items ∧
    (clearCache st).fetchedTimes = st.fetchedTimes ∧
    (clearCache st).cache.entries = [] ∧
    (clearCache st).cache.defaultTtl = st.cache.defaultTtl ∧
    (clearCache st).loadingItems = [] ∧
    (clearCache st).errorItems = [] :=
  ⟨rfl, rfl, rfl, rfl, rfl, rfl⟩

/-- C8: lazy-expiry cache semantics — `get` returns the stored value iff the
entry exists and `now - createdAt ≤ ttl` (and then leaves the cache alone);
it returns absent when no entry exists; when the entry exists but
`now - createdAt > ttl`, both `get` and `has` delete it as a side effect
before returning absent/false.  All operations are total functions (the
cache never throws). -/
theorem C8_cache_lazy_expiry (c : Cache) (now : Nat) (key : String) :
    (∀ e, lookupAssoc c.entries key = some e → now - e.timestamp ≤ e.ttl →
      c.get now key = (some e.value, c) ∧ c.has now key = (true, c)) ∧
    (lookupAssoc c.entries key = none →
      c.get now key = (none, c) ∧ c.has now key = (false, c)) ∧
    (∀ e, lookupAssoc c.entries key = some e → now - e.timestamp > e.ttl →
      (c.get now key).1 = none ∧
      lookupAssoc ((c.get now key).2).entries key = none ∧
      (c.has now key).1 = false ∧
      lookupAssoc ((c.has now key).2).entries key = none) := by
  refine ⟨?_, ?_, ?_⟩
  · intro e he hfresh
    have hnot : ¬ (now - e.timestamp > e.ttl) := by omega
    constructor
    · simp [Cache.get, he, hnot]
    · simp [Cache.has, he, hnot]
  · intro hnone
    constructor <;> simp [Cache.get, Cache.has, hnone]
  · intro e he hexp
    refine ⟨?_, ?_, ?_, ?_⟩ <;>
      simp [Cache.get, Cache.has, he, hexp, lookupAssoc_deleteAssoc_self]

/-- C8 witness: on the one-entry cache `cacheW` (`timestamp` 100, `ttl` 50),
`get` at time 120 returns the value and leaves the cache alone; at time 200
the entry is expired, `get` returns absent and the entry is gone. -/
theorem C8_witness :
    lookupAssoc cacheW.entries "k" = some entryW ∧
    120 - entryW.timestamp ≤ entryW.ttl ∧
    Cache.get cacheW 120 "k" = (some entryW.value, cacheW) ∧
    200 - entryW.timestamp > entryW.ttl ∧
    (Cache.get cacheW 200 "k").1 = none ∧
    lookupAssoc ((Cache.get cacheW 200 "k").2).entries "k" = none := by
  have hl : lookupAssoc cacheW.entries "k" = some entryW := by
    simp [cacheW, lookupAssoc]
  have h1 := ((C8_cache_lazy_expiry cacheW 120 "k").1 entryW hl (by decide)).1
  have h2 := (C8_cache_lazy_expiry cacheW 200 "k").2.2 entryW hl (by decide)
  exact ⟨hl, by decide, h1, by decide, h2.1, h2.2.1⟩

/-- C9 counterexample: the claim's key derivation
(`"items-" + (parentId ?? "root")`) disagrees with the source
(`` `items-${parentId || 'root'}` ``) at the empty-string parent id: the code
produces `"items-root"`, the claim's formula produces `"items-"`. -/
theorem C9_counterexample :
    cacheKey (some "") = "items-root" ∧
    specCacheKey (some "") = "items-" ∧
    cacheKey (some "") ≠ specCacheKey (some "") := by
  refine ⟨by decide, by decide, by decide⟩

/-- C9 (amended): the key used by `loadItems` and `retryLoadItems` is
`"items-" ++ parentId` for a non-empty parent id and `"items-root"` when the
parent id is absent **or the empty string** (JS `||` treats `""` as falsy);
the expansion handler's stale-delete key is `"items-" ++ itemId` verbatim,
which agrees with the loadItems key for every non-empty id. -/
theorem C9_amended_key (p : String) (hp : p ≠ "") :
    cacheKey (some p) = "items-" ++ p ∧
    cacheKey none = "items-root" ∧
    cacheKey (some "") = "items-root" ∧
    expansionStaleDeleteKey p = cacheKey (some p) := by
  refine ⟨?_, by decide, by decide, ?_⟩ <;>
    simp [cacheKey, rootFallback, expansionStaleDeleteKey, hp]

/-- C9 witness: the amended key facts at the concrete non-empty id `"a"`. -/
theorem C9_witness :
    ("a" : String) ≠ "" ∧ cacheKey (some "a") = "items-" ++ "a" ∧
    expansionStaleDeleteKey "a" = cacheKey (some "a") := by
  have h := C9_amended_key "a" (by decide)
  exact ⟨by decide, h.1, h.2.2.2⟩

/-- C2 counterexample: the claim's splice rule ("root replacement when
parentId is absent, recursive child replacement otherwise") fails at the
defined parent id `""`.  On `stRoot` (snapshot `[a]`, fresh entry under
`"items-root"` — the key `loadItems` computes for `some ""`), a cache hit for
parent id `""` replaces the whole snapshot with the cached value (node ids
become `["a1"]`), whereas the recursive child replacement the claim requires
would leave the snapshot's ids `["a"]` unchanged: the source's
`if (parentId)` is a truthiness test and treats `""` like the root. -/
theorem C2_counterexample :
    lookupAssoc stRoot.cache.entries (cacheKey (some "")) = some entryC2 ∧
    2000 - entryC2.timestamp ≤ entryC2.ttl ∧
    (loadItems (some dsA) stRoot (some "") 2000 2001).1.items = entryC2.value ∧
    (loadItems (some dsA) stRoot (some "") 2000 2001).1.items.map Item.id
      = ["a1"] ∧
    (updateItemsRecursively stRoot.items "" entryC2.value).map Item.id
      = ["a"] := by
  refine ⟨?_, by decide, ?_, ?_, ?_⟩
  · simp [stRoot, lookupAssoc, cacheKey, rootFallback]
  · simp [loadItems, loadItemsStart, Cache.get, lookupAssoc, cacheKey,
      rootFallback, stRoot, entryC2]
  · simp [loadItems, loadItemsStart, Cache.get, lookupAssoc, cacheKey,
      rootFallback, stRoot, entryC2, childA1, Item.id]
  · simp [updateItemsRecursively, stRoot, Item.id]

/-- C2 (amended): a cache hit short-circuits the fetch — with a populated,
non-expired entry under the key for `parentId`, `loadItems` splices the
cached children into the snapshot and returns: whole-root replacement when
`parentId` is absent or the empty string (JS truthiness), recursive child
replacement for a non-empty `parentId`; it issues no Fetch Provider call and
leaves `loadingItems` (and everything else but `items`) unchanged. -/
theorem C2_cache_hit_short_circuits (ds : DataSource) (st : HookState)
    (parentId : Option String) (now nowDone : Nat) (e : CacheEntry)
    (hentry : lookupAssoc st.cache.entries (cacheKey parentId) = some e)
    (hfresh : now - e.timestamp ≤ e.ttl) :
    loadItems (some ds) st parentId now nowDone =
      ({ st with items :=
          match parentId with
          | some pid =>
            if pid = "" then e.value
            else updateItemsRecursively st.items pid e.value
          | none => e.value },
       [], .ok ()) := by
  have hnot : ¬ (now - e.timestamp > e.ttl) := by omega
  have hget : st.cache.get now (cacheKey parentId) = (some e.value, st.cache) := by
    simp [Cache.get, hentry, hnot]
  cases parentId with
  | none => simp [loadItems, loadItemsStart, hget]
  | some pid =>
    by_cases hpid : pid = ""
    · subst hpid
      simp [loadItems, loadItemsStart, hget]
    · have hbne : (pid != "") = true := by simpa using hpid
      simp [loadItems, loadItemsStart, hget, hpid, hbne]

/-- C2 witness: on `stC2` (fresh entry for `"items-a"` at time 1000, TTL
5000), `loadItems` for the non-empty parent `"a"` at time 2000 splices the
cached children recursively and makes no Fetch Provider call. -/
theorem C2_witness :
    lookupAssoc stC2.cache.entries (cacheKey (some "a")) = some entryC2 ∧
    2000 - entryC2.timestamp ≤ entryC2.ttl ∧
    loadItems (some dsA) stC2 (some "a") 2000 2001 =
      ({ stC2 with
          items := updateItemsRecursively stC2.items "a" entryC2.value },
       [], .ok ()) := by
  have hl : lookupAssoc stC2.cache.entries (cacheKey (some "a")) = some entryC2 := by
    simp [stC2, lookupAssoc, cacheKey, rootFallback]
  refine ⟨hl, by decide, ?_⟩
  simpa using
    C2_cache_hit_short_circuits dsA stC2 (some "a") 2000 2001 entryC2 hl (by decide)

/-- C5 counterexample: the claim quantifies over every *defined* parent id,
but at the defined parent id `""` the source's `if (parentId)` truthiness
guards skip both the loading-flag updates and the ErrorState write: with the
always-failing provider, `loadItems` for parent id `""` re-throws the
rejection yet leaves `errorItems` empty — `""` is not mapped to the
failure's message as the claim requires. -/
theorem C5_counterexample :
    dsFail.getTreeItems (some "") = .error "boom" ∧
    ((loadItems (some dsFail) stA (some "") 5 6).2.2 = .error "boom") ∧
    ((loadItems (some dsFail) stA (some "") 5 6).1.errorItems = []) ∧
    (lookupAssoc (loadItems (some dsFail) stA (some "") 5 6).1.errorItems ""
      = none) ∧
    ((loadItems (some dsFail) stA (some "") 5 6).1.loadingItems = []) := by
  refine ⟨rfl, ?_, ?_, ?_, ?_⟩ <;>
    simp [loadItems, loadItemsStart, loadItemsFinish, Cache.get, lookupAssoc,
      cacheKey, rootFallback, stA, Cache.mkCache, dsFail]

/-- C5 (amended): fetch failure for a defined **non-empty** parent id — after
the provider rejects with `msg`, the parent id is not in the loading set, the
error map holds `msg` for it, the rejection is re-thrown, the snapshot is
untouched, and exactly one Fetch Provider call was made.  (For the defined
but empty parent id, JS truthiness makes `loadItems` handle the failure like
a root failure: no loading flag, no error record, the error still
re-thrown.) -/
theorem C5_fetch_failure (ds : DataSource) (st : HookState) (pid msg : String)
    (now nowDone : Nat) (hne : pid ≠ "")
    (hrej : ds.getTreeItems (some pid) = .error msg)
    (hmiss : (st.cache.get now (cacheKey (some pid))).1 = none) :
    ((loadItems (some ds) st (some pid) now nowDone).2.1 = [some pid]) ∧
    ((loadItems (some ds) st (some pid) now nowDone).2.2 = .error msg) ∧
    ((loadItems (some ds) st (some pid) now nowDone).1.loadingItems.contains pid
      = false) ∧
    (lookupAssoc (loadItems (some ds) st (some pid) now nowDone).1.errorItems pid
      = some msg) ∧
    ((loadItems (some ds) st (some pid) now nowDone).1.items = st.items) := by
  have hbne : (pid != "") = true := by simpa using hne
  rcases hg : st.cache.get now (cacheKey (some pid)) with ⟨v, c2⟩
  have hv : v = none := by rw [hg] at hmiss; exact hmiss
  subst hv
  have hload :
      loadItems (some ds) st (some pid) now nowDone =
        ({ st with cache := c2,
                   loadingItems := removeId (addId st.loadingItems pid) pid,
                   errorItems := setAssoc (deleteAssoc st.errorItems pid) pid msg },
         [some pid], .error msg) := by
    simp [loadItems, loadItemsStart, loadItemsFinish, hg, hrej, hbne]
  rw [hload]
  exact ⟨rfl, rfl, contains_removeId_self _ _, lookupAssoc_setAssoc_self _ _ _, rfl⟩

/-- C5 witness: the always-failing provider `dsFail` on `stA` for the
non-empty parent `"a"`. -/
theorem C5_witness :
    ("a" : String) ≠ "" ∧
    dsFail.getTreeItems (some "a") = .error "boom" ∧
    (stA.cache.get 5 (cacheKey (some "a"))).1 = none ∧
    ((loadItems (some dsFail) stA (some "a") 5 6).2.2 = .error "boom") ∧
    ((loadItems (some dsFail) stA (some "a") 5 6).1.loadingItems.contains "a"
      = false) ∧
    (lookupAssoc (loadItems (some dsFail) stA (some "a") 5 6).1.errorItems "a"
      = some "boom") ∧
    ((loadItems (some dsFail) stA (some "a") 5 6).1.items = stA.items) := by
  have h := C5_fetch_failure dsFail stA "a" "boom" 5 6 (by decide) rfl rfl
  exact ⟨by decide, rfl, rfl, h.2.1, h.2.2.1, h.2.2.2.1, h.2.2.2.2⟩

/-- C10: a failing root load leaves per-node state untouched — when
`loadItems` is called with no parent id and the provider rejects, the loading
set and the error map afterwards are exactly what they were before (no
loading flag is set for the root and the failure is not recorded), the
snapshot is untouched, and the error is re-thrown; one call was made. -/
theorem C10_root_failure_frame (ds : DataSource) (st : HookState)
    (msg : String) (now nowDone : Nat)
    (hrej : ds.getTreeItems none = .error msg)
    (hmiss : (st.cache.get now (cacheKey none)).1 = none) :
    ((loadItems (some ds) st none now nowDone).1.loadingItems
      = st.loadingItems) ∧
    ((loadItems (some ds) st none now nowDone).1.errorItems = st.errorItems) ∧
    ((loadItems (some ds) st none now nowDone).1.items = st.items) ∧
    ((loadItems (some ds) st none now nowDone).2.2 = .error msg) ∧
    ((loadItems (some ds) st none now nowDone).2.1 = [none]) := by
  rcases hg : st.cache.get now (cacheKey none) with ⟨v, c2⟩
  have hv : v = none := by rw [hg] at hmiss; exact hmiss
  subst hv
  have hload :
      loadItems (some ds) st none now nowDone =
        ({ st with cache := c2 }, [none], .error msg) := by
    simp [loadItems, loadItemsStart, loadItemsFinish, hg, hrej]
  rw [hload]
  exact ⟨rfl, rfl, rfl, rfl, rfl⟩

/-- C10 witness: the always-failing provider `dsFail` on `stA` with no parent
id. -/
theorem C10_witness :
    dsFail.getTreeItems none = .error "boom" ∧
    (stA.cache.get 5 (cacheKey none)).1 = none ∧
    ((loadItems (some dsFail) stA none 5 6).1.loadingItems
      = stA.loadingItems) ∧
    ((loadItems (some dsFail) stA none 5 6).1.errorItems = stA.errorItems) ∧
    ((loadItems (some dsFail) stA none 5 6).2.2 = .error "boom") := by
  have h := C10_root_failure_frame dsFail stA "boom" 5 6 rfl rfl
  exact ⟨rfl, rfl, h.1, h.2.1, h.2.2.2.1⟩

/-- C1 counterexample: the claim "at most one fetch in flight per node id"
fails on the code.  Expanding node `"a"` of `stA` puts `"a"` into the loading
set and issues a fetch; handling a second expansion for `"a"` in the
resulting state — while that fetch is still outstanding — issues a second
Fetch Provider call for `"a"` (two calls total, not one): neither
`handleItemExpansion` nor `loadItems` consults the loading set. -/
theorem C1_counterexample :
    ((handleItemExpansionStart (some dsA) defaultStaleTime stA "a" 1000).2.1
      = [some "a"]) ∧
    ((handleItemExpansionStart (some dsA) defaultStaleTime stA "a" 1000).1.loadingItems
      = ["a"]) ∧
    ((handleItemExpansionStart (some dsA) defaultStaleTime
        (handleItemExpansionStart (some dsA) defaultStaleTime stA "a" 1000).1
        "a" 1001).2.1
      = [some "a"]) := by
  refine ⟨?_, ?_, ?_⟩ <;>
    simp [handleItemExpansionStart, loadItemsStart, findItemById, dsA, stA,
      Cache.mkCache, Cache.get, Cache.delete, lookupAssoc, deleteAssoc, addId,
      cacheKey, rootFallback, expansionStaleDeleteKey, isStaleAt,
      hasNoLoadedChildren, defaultStaleTime, defaultCacheTtl]

/-- C1 (amended): the expansion decision has no LoadingState guard — handling
an expansion for a node that is present in the snapshot, has non-zero
children count, and has no recorded fetch time issues a Fetch Provider call
and adds the id to the loading set, and handling a second expansion in the
resulting state (the first fetch still outstanding) issues a second call:
two rapid expansions yield exactly two Fetch Provider calls, not one. -/
theorem C1_amended_second_fetch (ds : DataSource) (staleTime : Nat)
    (st : HookState) (itemId : String) (item : Item) (now now' : Nat)
    (hfind : findItemById st.items itemId = some item)
    (hcc : ds.getChildrenCount item ≠ 0)
    (hnf : lookupAssoc st.fetchedTimes itemId = none)
    (hne : itemId ≠ "") :
    ((handleItemExpansionStart (some ds) staleTime st itemId now).2.1
      = [some itemId]) ∧
    ((handleItemExpansionStart (some ds) staleTime st itemId
        now).1.loadingItems.contains itemId = true) ∧
    ((handleItemExpansionStart (some ds) staleTime
        (handleItemExpansionStart (some ds) staleTime st itemId now).1
        itemId now').2.1
      = [some itemId]) := by
  have hcc' : (ds.getChildrenCount item != 0) = true := by simpa using hcc
  have hkey : cacheKey (some itemId) = "items-" ++ itemId := by
    simp [cacheKey, rootFallback, hne]
  have step : ∀ (st' : HookState) (n : Nat),
      findItemById st'.items itemId = some item →
      lookupAssoc st'.fetchedTimes itemId = none →
      handleItemExpansionStart (some ds) staleTime st' itemId n =
        ({ st' with
            cache :=
              { entries := deleteAssoc st'.cache.entries ("items-" ++ itemId),
                defaultTtl := st'.cache.defaultTtl },
            loadingItems := addId st'.loadingItems itemId,
            errorItems := deleteAssoc st'.errorItems itemId },
         [some itemId], some (.fetching (some itemId))) := by
    intro st' n hfind' hnf'
    have hbne : (itemId != "") = true := by simpa using hne
    simp only [handleItemExpansionStart, hfind', hnf', isStaleAt, hcc',
      Bool.true_or, Bool.true_and, Bool.and_true, if_true, hbne,
      expansionStaleDeleteKey, Cache.delete, loadItemsStart, hkey,
      Cache.get, lookupAssoc_deleteAssoc_self]
  have h1 := step st now hfind hnf
  have hfind2 : findItemById
      (handleItemExpansionStart (some ds) staleTime st itemId now).1.items
      itemId = some item := by
    rw [h1]; exact hfind
  have hnf2 : lookupAssoc
      (handleItemExpansionStart (some ds) staleTime st itemId
        now).1.fetchedTimes itemId = none := by
    rw [h1]; exact hnf
  refine ⟨by rw [h1], ?_, ?_⟩
  · rw [h1]
    exact contains_addId_self _ _
  · rw [step _ now' hfind2 hnf2]

/-- C1 witness: the amended two-fetch behaviour at the concrete provider
`dsA` and state `stA` for node `"a"`. -/
theorem C1_witness :
    findItemById stA.items "a" = some (Item.mk "a" "A" none) ∧
    dsA.getChildrenCount (Item.mk "a" "A" none) ≠ 0 ∧
    lookupAssoc stA.fetchedTimes "a" = none ∧
    ((handleItemExpansionStart (some dsA) defaultStaleTime stA "a" 1000).2.1
      = [some "a"]) ∧
    ((handleItemExpansionStart (some dsA) defaultStaleTime
        (handleItemExpansionStart (some dsA) defaultStaleTime stA "a" 1000).1
        "a" 1001).2.1 = [some "a"]) := by
  have hfind : findItemById stA.items "a" = some (Item.mk "a" "A" none) := by
    simp [stA, findItemById]
  have h := C1_amended_second_fetch dsA defaultStaleTime stA "a"
    (Item.mk "a" "A" none) 1000 1001 hfind (by decide) rfl (by decide)
  exact ⟨hfind, by decide, rfl, h.1, h.2.2⟩

theorem update_eq_of_find_none : (items : List Item) → (t : String) →
    (C : List Item) → findItemById items t = none →
    updateItemsRecursively items t C = items
  | [], _, _, _ => by simp [updateItemsRecursively]
  | Item.mk i l none :: rest, t, C, h => by
    simp only [findItemById] at h
    by_cases hit : i = t
    · simp [hit] at h
    · rw [if_neg hit] at h
      simp only [updateItemsRecursively, if_neg hit]
      rw [update_eq_of_find_none rest t C h]
  | Item.mk i l (some cs) :: rest, t, C, h => by
    simp only [findItemById] at h
    by_cases hit : i = t
    · simp [hit] at h
    · rw [if_neg hit] at h
      cases hcs : findItemById cs t with
      | some f => rw [hcs] at h; simp at h
      | none =>
        rw [hcs] at h
        simp only [updateItemsRecursively, if_neg hit]
        rw [update_eq_of_find_none cs t C hcs]
        have h' : findItemById rest t = none := by simpa using h
        rw [update_eq_of_find_none rest t C h']
        simp
termination_by items _ _ _ => sizeOf items

theorem find_update_children : (items : List Item) → (t : String) →
    (C : List Item) → (findItemById items t).isSome →
    ∃ n, findItemById (updateItemsRecursively items t C) t = some n ∧
      n.children = some C
  | [], t, C, h => by simp [findItemById] at h
  | Item.mk i l none :: rest, t, C, h => by
    simp only [findItemById] at h
    by_cases hit : i = t
    · refine ⟨Item.mk i l (some C), ?_, rfl⟩
      simp [updateItemsRecursively, findItemById, hit]
    · rw [if_neg hit] at h
      obtain ⟨n, hn, hc⟩ := find_update_children rest t C h
      refine ⟨n, ?_, hc⟩
      simp only [updateItemsRecursively, if_neg hit]
      simp only [findItemById, if_neg hit]
      exact hn
  | Item.mk i l (some cs) :: rest, t, C, h => by
    simp only [findItemById] at h
    by_cases hit : i = t
    · refine ⟨Item.mk i l (some C), ?_, rfl⟩
      simp [updateItemsRecursively, findItemById, hit]
    · rw [if_neg hit] at h
      cases hcs : findItemById cs t with
      | some f =>
        have hcs' : (findItemById cs t).isSome := by rw [hcs]; rfl
        obtain ⟨n, hn, hc⟩ := find_update_children cs t C hcs'
        have hlen : cs.length > 0 := by
          cases cs with
          | nil => simp [findItemById] at hcs
          | cons a as => simp
        refine ⟨n, ?_, hc⟩
        simp only [updateItemsRecursively, if_neg hit]
        rw [if_pos hlen]
        simp only [findItemById, if_neg hit, hn]
      | none =>
        rw [hcs] at h
        have h' : (findItemById rest t).isSome := by simpa using h
        obtain ⟨n, hn, hc⟩ := find_update_children rest t C h'
        refine ⟨n, ?_, hc⟩
        by_cases hlen : cs.length > 0
        · simp only [updateItemsRecursively, if_neg hit]
          rw [if_pos hlen]
          rw [update_eq_of_find_none cs t C hcs]
          simp only [findItemById, if_neg hit, hcs]
          exact hn
        · simp only [updateItemsRecursively, if_neg hit]
          rw [if_neg hlen]
          simp only [findItemById, if_neg hit, hcs]
          exact hn
termination_by items _ _ _ => sizeOf items

/-- C4: round-trip of children replacement — on a tree with unique ids, if
`t` is present (`findItemById` succeeds), then finding `t` after
`updateItemsRecursively tree t C` yields a node whose children are exactly
`C`; if `t` is absent, the replacement returns a tree structurally equal to
the original (reference sharing is not observable in the embedding;
structural equality is what is statable). -/
theorem C4_replaceChildren_roundtrip (items : List Item) (t : String)
    (C : List Item)
    (_huniq : ((flattenTree items).map Item.id).Nodup) :
    ((findItemById items t).isSome →
      ∃ n, findItemById (updateItemsRecursively items t C) t = some n ∧
        n.children = some C) ∧
    (findItemById items t = none → updateItemsRecursively items t C = items) :=
  ⟨fun h => find_update_children items t C h,
   fun h => update_eq_of_find_none items t C h⟩

/-- C4 witness: the two-root tree `items0` (unique ids), replacing the
children of the nested node `"b"` and of the absent id `"zzz"`. -/
theorem C4_witness :
    ((flattenTree items0).map Item.id).Nodup ∧
    (findItemById items0 "b").isSome ∧
    (∃ n, findItemById (updateItemsRecursively items0 "b" newC) "b" = some n ∧
      n.children = some newC) ∧
    (findItemById items0 "zzz" = none ∧
      updateItemsRecursively items0 "zzz" newC = items0) := by
  have hnodup : ((flattenTree items0).map Item.id).Nodup := by
    simp [items0, flattenTree, Item.id]
  have hsome : (findItemById items0 "b").isSome := by
    simp [items0, findItemById]
  have hnone : findItemById items0 "zzz" = none := by
    simp [items0, findItemById]
  exact ⟨hnodup, hsome,
    (C4_replaceChildren_roundtrip items0 "b" newC hnodup).1 hsome,
    hnone, (C4_replaceChildren_roundtrip items0 "zzz" newC hnodup).2 hnone⟩

/-- C3: expansion fetch decision — for a node found in the snapshot (with
positive recorded timestamps, as `Date.now()` produces), `loadItems` is
invoked if and only if the provider's children count is non-zero AND (the
node has no children array, OR it has zero children loaded, OR its last-fetch
timestamp is absent or older than the stale window); and whenever the node is
stale (and the count is non-zero), the handler's cache entry for the node is
deleted first and `loadItems` runs on that delete-applied state. -/
theorem C3_expansion_fetch_decision (ds : DataSource) (staleTime : Nat)
    (st : HookState) (itemId : String) (item : Item) (now : Nat)
    (hfind : findItemById st.items itemId = some item)
    (hpos : ∀ t, lookupAssoc st.fetchedTimes itemId = some t → 0 < t) :
    (((handleItemExpansionStart (some ds) staleTime st itemId now).2.2).isSome
      ↔ (ds.getChildrenCount item ≠ 0 ∧
          (item.children = none ∨
           (∃ cs, item.children = some cs ∧ cs.length = 0) ∨
           lookupAssoc st.fetchedTimes itemId = none ∨
           (∃ t, lookupAssoc st.fetchedTimes itemId = some t ∧
             now - t > staleTime)))) ∧
    (ds.getChildrenCount item ≠ 0 →
      (lookupAssoc st.fetchedTimes itemId = none ∨
       (∃ t, lookupAssoc st.fetchedTimes itemId = some t ∧
         now - t > staleTime)) →
      handleItemExpansionStart (some ds) staleTime st itemId now =
        invokedLoad
          (loadItemsStart (staleDeletedState st itemId) (some itemId) now)) := by
  have hstale_iff :
      isStaleAt (lookupAssoc st.fetchedTimes itemId) now staleTime = true ↔
        (lookupAssoc st.fetchedTimes itemId = none ∨
         (∃ t, lookupAssoc st.fetchedTimes itemId = some t ∧
           now - t > staleTime)) := by
    cases hlf : lookupAssoc st.fetchedTimes itemId with
    | none => simp [isStaleAt]
    | some t =>
      have ht : t ≠ 0 := (hpos t hlf).ne'
      simp [isStaleAt, ht]
  have hnc : hasNoLoadedChildren item = true ↔
      (item.children = none ∨
       ∃ cs, item.children = some cs ∧ cs.length = 0) := by
    cases hc : item.children with
    | none => simp [hasNoLoadedChildren, hc]
    | some cs => simp [hasNoLoadedChildren, hc]
  have hcond_iff :
      (ds.getChildrenCount item != 0 &&
        (isStaleAt (lookupAssoc st.fetchedTimes itemId) now staleTime ||
         hasNoLoadedChildren item)) = true ↔
        (ds.getChildrenCount item ≠ 0 ∧
         (item.children = none ∨
          (∃ cs, item.children = some cs ∧ cs.length = 0) ∨
          lookupAssoc st.fetchedTimes itemId = none ∨
          (∃ t, lookupAssoc st.fetchedTimes itemId = some t ∧
            now - t > staleTime))) := by
    rw [Bool.and_eq_true, Bool.or_eq_true, hstale_iff, hnc]
    simp only [bne_iff_ne, ne_eq]
    constructor
    · rintro ⟨ha, hb⟩
      refine ⟨ha, ?_⟩
      rcases hb with (h | h) | (h | h)
      · exact Or.inr (Or.inr (Or.inl h))
      · exact Or.inr (Or.inr (Or.inr h))
      · exact Or.inl h
      · exact Or.inr (Or.inl h)
    · rintro ⟨ha, hb⟩
      refine ⟨ha, ?_⟩
      rcases hb with h | h | h | h
      · exact Or.inr (Or.inl h)
      · exact Or.inr (Or.inr h)
      · exact Or.inl (Or.inl h)
      · exact Or.inl (Or.inr h)
  constructor
  · rw [← hcond_iff]
    by_cases hb : (ds.getChildrenCount item != 0 &&
        (isStaleAt (lookupAssoc st.fetchedTimes itemId) now staleTime ||
         hasNoLoadedChildren item)) = true
    · simp only [handleItemExpansionStart, hfind]
      rw [if_pos hb]
      simp [hb]
    · simp only [handleItemExpansionStart, hfind]
      rw [if_neg hb]
      simp [hb]
  · intro hcount hstale
    have hst : isStaleAt (lookupAssoc st.fetchedTimes itemId) now staleTime
        = true := hstale_iff.mpr hstale
    have hb : (ds.getChildrenCount item != 0 &&
        (isStaleAt (lookupAssoc st.fetchedTimes itemId) now staleTime ||
         hasNoLoadedChildren item)) = true := by
      rw [hst]
      simpa using hcount
    simp only [handleItemExpansionStart, hfind]
    rw [if_pos hb, hst]
    simp [invokedLoad, staleDeletedState]

/-- C3 witness: on `stA` the node `"a"` is found, has count 1, no children
and no recorded fetch time, so a load is invoked and it runs on the state
with the stale key deleted. -/
theorem C3_witness :
    findItemById stA.items "a" = some (Item.mk "a" "A" none) ∧
    ((handleItemExpansionStart (some dsA) defaultStaleTime stA "a"
        1000).2.2).isSome ∧
    handleItemExpansionStart (some dsA) defaultStaleTime stA "a" 1000 =
      invokedLoad (loadItemsStart (staleDeletedState stA "a") (some "a") 1000) := by
  have hfind : findItemById stA.items "a" = some (Item.mk "a" "A" none) := by
    simp [stA, findItemById]
  have hpos : ∀ t, lookupAssoc stA.fetchedTimes "a" = some t → 0 < t := by
    intro t ht
    simp [stA, lookupAssoc] at ht
  have h := C3_expansion_fetch_decision dsA defaultStaleTime stA "a"
    (Item.mk "a" "A" none) 1000 hfind hpos
  exact ⟨hfind, (h.1).mpr ⟨by decide, Or.inl rfl⟩, h.2 (by decide) (Or.inl rfl)⟩
